import Mathlib

/-!
A shallow embedding of the `ratatop` terminal system monitor
(`src/apps/ratatop/src/app.rs`), covering the parts the verified claims
are about: the CPU history buffer filled by `App::run`, the
filter/sort pipeline of `App::render_processes`, and the key-event
state machine of `App::on_key_event`.

Machine floats (`f32`/`f64`) are modelled by `F32`: `nan`, the two
infinities, and finite values as exact rationals.  The Rust string
round-trip `cpu_usage().to_string()`/`parse::<f32>()` is cut at the
string boundary: rows carry the stringified cpu field, and `parseF32`
models `str::parse::<f32>` on the fragment that can arise there
(optionally signed decimal literals without exponent, and the words
nan/inf/infinity, case-insensitively).
-/

namespace Ratatop

/-! ### Strings: lowercasing and substring search

`cell.to_lowercase().contains(&text.to_lowercase())` from
`render_processes` (app.rs:121-126). -/

/-- Rust `str::to_lowercase`, modelled per character. -/
def lowerStr (s : String) : String := String.mk (s.data.map Char.toLower)

/-- Does the second list start with the first? -/
def startsWithL : List Char → List Char → Bool
  | [], _ => true
  | _ :: _, [] => false
  | a :: as, b :: bs => a == b && startsWithL as bs

/-- Does the pattern occur as a contiguous run inside the list? -/
def hasSubstr (pat : List Char) : List Char → Bool
  | [] => startsWithL pat []
  | b :: bs => startsWithL pat (b :: bs) || hasSubstr pat bs

/-- Rust `hay.contains(pat)` on strings. -/
def strContains (hay pat : String) : Bool := hasSubstr pat.data hay.data

/-! ### The float model and `str::parse::<f32>` -/

/-- A machine float as the claims need it: NaN, infinities, or an exact
finite value. -/
inductive F32 where
  | nan
  | inf
  | ninf
  | val (q : Rat)
deriving DecidableEq, Repr

/-- Rust `f32::partial_cmp`: `none` exactly when a NaN is involved. -/
def fcmp : F32 → F32 → Option Ordering
  | .nan, _ => none
  | _, .nan => none
  | .inf, .inf => some .eq
  | .inf, _ => some .gt
  | _, .inf => some .lt
  | .ninf, .ninf => some .eq
  | .ninf, _ => some .lt
  | _, .ninf => some .gt
  | .val a, .val b =>
      some (if a < b then .lt else if b < a then .gt else .eq)

/-- The numeric value of a digit run. -/
def digitsVal (cs : List Char) : Nat :=
  cs.foldl (fun n c => n * 10 + (c.toNat - 48)) 0

/-- Rust `str::parse::<f32>` on the inputs reachable from stringified cpu
values: an optional sign, then `nan`, `inf`, `infinity` (case-insensitive)
or a decimal literal `digits[.digits]` with at least one digit.  Anything
else fails (`none`). -/
def parseF32 (s : String) : Option F32 :=
  let cs := (lowerStr s).data
  let sgn : Bool × List Char :=
    match cs with
    | '+' :: r => (false, r)
    | '-' :: r => (true, r)
    | r => (false, r)
  let neg := sgn.1
  let body := sgn.2
  if body = ['n', 'a', 'n'] then some .nan
  else if body = ['i', 'n', 'f'] ∨ body = ['i', 'n', 'f', 'i', 'n', 'i', 't', 'y'] then
    some (if neg then .ninf else .inf)
  else
    let ip := body.takeWhile Char.isDigit
    let rest := body.dropWhile Char.isDigit
    match rest with
    | [] =>
        if ip = [] then none
        else
          let m : Rat := (digitsVal ip : Nat)
          some (.val (if neg then -m else m))
    | '.' :: r2 =>
        let fp := r2.takeWhile Char.isDigit
        let r3 := r2.dropWhile Char.isDigit
        if r3 = [] ∧ (ip ≠ [] ∨ fp ≠ []) then
          let m : Rat := (digitsVal ip : Nat) + (digitsVal fp : Nat) / ((10 : Nat) ^ fp.length : Nat)
          some (.val (if neg then -m else m))
        else none
    | _ => none

/-! ### The row pipeline of `render_processes` (app.rs:106-141)

A row is built as `vec![pid.to_string(), name, cpu.to_string()]`, the
whole row list is sorted by the cpu column descending, then rows not
matching the search text are dropped (`retain`). -/

/-- `vec![pid.to_string(), name, cpu.to_string()]`. -/
def mkRow (pid : Nat) (name cpu : String) : List String := [toString pid, name, cpu]

/-- `row[2].parse::<f32>().unwrap_or(0.0)`: the sort key of a row. -/
def rowVal (row : List String) : F32 := (parseF32 (row.getD 2 "")).getD (.val 0)

/-- The comparator body `b_val.partial_cmp(&a_val)` (descending); the code
unwraps this, panicking when it is `none`. -/
def rowCmp (a b : List String) : Option Ordering := fcmp (rowVal b) (rowVal a)

/-- The comparator as a boolean `le`, faithful to the unwrapped comparator
on every input on which the code does not panic (no NaN sort key). -/
def rowLe (a b : List String) : Bool := (rowCmp a b).getD Ordering.eq != Ordering.gt

/-- Stable insertion of a row into an already sorted suffix: the new row
goes before the first row it compares `le` to, so rows with equal keys
keep their original relative order. -/
def insertRowSorted (x : List String) : List (List String) → List (List String)
  | [] => [x]
  | y :: ys => if rowLe x y then x :: y :: ys else y :: insertRowSorted x ys

/-- `rows.sort_by(...)`: Rust's `sort_by` is a stable sort under the
comparator; modelled as stable insertion sort, which produces the same
unique stable sorted permutation on every input where the comparator is
total and transitive (every input on which the code does not panic). -/
def sortRows : List (List String) → List (List String)
  | [] => []
  | x :: xs => insertRowSorted x (sortRows xs)

/-- One cell against the query: case-insensitive substring test. -/
def cellMatches (text cell : String) : Bool :=
  strContains (lowerStr cell) (lowerStr text)

/-- The `retain` predicate: some cell of the row matches the query. -/
def rowKept (text : String) (row : List String) : Bool :=
  row.any (cellMatches text)

/-- `rows.retain(...)`. -/
def filterRows (text : String) (rows : List (List String)) : List (List String) :=
  rows.filter (rowKept text)

/-- The full row pipeline of `render_processes`: build rows from the
process iteration order, sort, then filter by the query text. -/
def renderRows (text : String) (procs : List (Nat × String × String)) :
    List (List String) :=
  filterRows text (sortRows (procs.map fun p => mkRow p.1 p.2.1 p.2.2))

/-! ### Key events and `on_key_event` (app.rs:169-187) -/

/-- Crossterm key modifiers as a flag set. -/
structure Mods where
  ctrl : Bool
  alt : Bool
  shift : Bool
deriving DecidableEq, Repr

/-- No modifier held. -/
def noMods : Mods := ⟨false, false, false⟩

/-- Exactly `KeyModifiers::CONTROL` (the pattern in the quit arm matches
the flag set exactly). -/
def ctrlOnly : Mods := ⟨true, false, false⟩

/-- The crossterm key codes this app distinguishes. -/
inductive KeyCode where
  | esc
  | backspace
  | char (c : Char)
  | other
deriving DecidableEq, Repr

/-- A key press event. -/
structure KeyEvent where
  mods : Mods
  code : KeyCode
deriving DecidableEq, Repr

/-- The first match arm of `on_key_event`:
`(_, Esc | Char('q')) | (CONTROL, Char('c') | Char('C'))`. -/
def isQuitKey (k : KeyEvent) : Bool :=
  decide (k.code = .esc) || decide (k.code = .char 'q')
    || (decide (k.mods = ctrlOnly)
        && (decide (k.code = .char 'c') || decide (k.code = .char 'C')))

/-- `tui_textarea::TextArea::input` restricted to the single line this app
uses (external collaborator, modelled from its documented behavior): a
plain character is inserted at the end, backspace removes the last
character, other keys leave the text unchanged. -/
def textInput (text : String) (k : KeyEvent) : String :=
  match k.code with
  | .char c => if k.mods.ctrl || k.mods.alt then text else text.push c
  | .backspace => String.mk text.data.dropLast
  | _ => text

/-- ratatui `TableState::select_next` (external collaborator, modelled from
ratatui 0.29): `Some(selected.map_or(0, saturating_add 1))`; no clamping to
the row count happens here. -/
def selectNext (s : Option Nat) : Option Nat :=
  some (match s with | some i => i + 1 | none => 0)

/-- ratatui `TableState::select_previous` (external collaborator, modelled
from ratatui 0.29): `Some(selected.map_or(usize::MAX, saturating_sub 1))`. -/
def selectPrev (s : Option Nat) : Option Nat :=
  some (match s with | some i => i - 1 | none => 2 ^ 64 - 1)

/-- The mutable `App` struct, restricted to the fields the key handler and
the draw loop touch: `running`, the cpu history, the table selection, the
search text (the textarea's first line) and the `search` flag. -/
structure App where
  running : Bool
  cpu : List (Nat × Rat)
  selected : Option Nat
  searchText : String
  search : Bool
deriving DecidableEq, Repr

/-- `App::new()` (app.rs:26-38). -/
def App.new : App :=
  { running := false, cpu := [], selected := none, searchText := "", search := false }

/-- The start of `App::run` (app.rs:41-43): `running = true` and
`table_state.select(Some(0))`, unconditionally. -/
def runInit (a : App) : App := { a with running := true, selected := some 0 }

/-- `App::on_key_event`: when `search` is set the key is first fed to the
textarea, then the global match runs on the same key. -/
def onKeyEvent (a : App) (k : KeyEvent) : App :=
  let a1 := if a.search then { a with searchText := textInput a.searchText k } else a
  if isQuitKey k then { a1 with running := false }
  else
    match k.code with
    | .char 's' => { a1 with search := !a1.search }
    | .char 'j' => { a1 with selected := selectNext a1.selected }
    | .char 'k' => { a1 with selected := selectPrev a1.selected }
    | _ => a1

/-! ### The draw pass of the event loop (app.rs:44-58)

Each `terminal.draw` closure run: on `frame.count() % 60 == 0` it refreshes
the full process table, it always refreshes the aggregate CPU, and it
pushes `(frame.count(), global_cpu_usage())` onto the history.  The frame
counter is the terminal's completed-frame count, starting at 0. -/

/-- The loop state observable across draw passes: the frame counter, the
cpu history, and how many full/aggregate refreshes have been issued. -/
structure DrawState where
  frame : Nat
  cpu : List (Nat × Rat)
  fullRefreshCount : Nat
  aggRefreshCount : Nat
deriving DecidableEq, Repr

/-- One draw pass with the aggregate cpu reading `v`. -/
def drawPass (s : DrawState) (v : Rat) : DrawState :=
  { frame := s.frame + 1
    cpu := s.cpu ++ [(s.frame, v)]
    fullRefreshCount := s.fullRefreshCount + (if s.frame % 60 = 0 then 1 else 0)
    aggRefreshCount := s.aggRefreshCount + 1 }

/-- The loop state before the first draw pass. -/
def drawInit : DrawState :=
  { frame := 0, cpu := [], fullRefreshCount := 0, aggRefreshCount := 0 }

/-- `n` draw passes from startup, with `u i` the aggregate cpu reading of
frame `i`. -/
def runFrames (u : Nat → Rat) : Nat → DrawState
  | 0 => drawInit
  | n + 1 => drawPass (runFrames u n) (u n)

/-! ### Fixed inputs used by the claim theorems -/

/-- A key press with no modifier. -/
def plainKey (c : KeyCode) : KeyEvent := ⟨noMods, c⟩

/-- Esc pressed. -/
def escEv : KeyEvent := plainKey .esc

/-- Letter s pressed. -/
def sEv : KeyEvent := plainKey (.char 's')

/-- Letter j pressed. -/
def jEv : KeyEvent := plainKey (.char 'j')

/-- Letter k pressed. -/
def kEv : KeyEvent := plainKey (.char 'k')

/-- Letter q pressed. -/
def qEv : KeyEvent := plainKey (.char 'q')

/-- A running app in Search mode with cursor 2, text "ab" and one sample. -/
def appS : App :=
  { running := true, cpu := [(0, 5)], selected := some 2, searchText := "ab", search := true }

/-- A running app in Normal mode with cursor 2. -/
def appN2 : App :=
  { running := true, cpu := [(0, 5)], selected := some 2, searchText := "", search := false }

/-- A running app in Normal mode with cursor 4 (over a 5-row list). -/
def app5 : App :=
  { running := true, cpu := [], selected := some 4, searchText := "", search := false }

/-- The selection invariant claimed by the spec: `None` over an empty
filtered list, otherwise an index in `[0, len-1]`. -/
def cursorInvariant (c : Option Nat) (len : Nat) : Prop :=
  (len = 0 → c = none) ∧ ∀ i, c = some i → i < len

/-! ### Helper lemmas on the draw loop -/

theorem frame_runFrames (u : Nat → Rat) (n : Nat) : (runFrames u n).frame = n := by
  induction n with
  | zero => rfl
  | succ n ih => simp [runFrames, drawPass, ih]

theorem cpu_runFrames (u : Nat → Rat) (n : Nat) :
    (runFrames u n).cpu = (List.range n).map fun i => (i, u i) := by
  induction n with
  | zero => rfl
  | succ n ih => simp [runFrames, drawPass, ih, frame_runFrames, List.range_succ]

theorem agg_runFrames (u : Nat → Rat) (n : Nat) : (runFrames u n).aggRefreshCount = n := by
  induction n with
  | zero => rfl
  | succ n ih => simp [runFrames, drawPass, ih]

theorem full_runFrames (u : Nat → Rat) (n : Nat) :
    (runFrames u n).fullRefreshCount = (n + 59) / 60 := by
  induction n with
  | zero => rfl
  | succ n ih =>
      simp only [runFrames, drawPass, ih, frame_runFrames]
      split <;> omega

theorem head_cpu_runFrames (u : Nat → Rat) (n : Nat) (h : 0 < n) :
    ((runFrames u n).cpu).head? = some (0, u 0) := by
  cases n with
  | zero => omega
  | succ m => rw [cpu_runFrames, List.range_succ_eq_map]; rfl

/-! ### Helper lemmas on the row pipeline -/

theorem mem_insertRowSorted {a x : List String} {l : List (List String)} :
    a ∈ insertRowSorted x l ↔ a = x ∨ a ∈ l := by
  induction l with
  | nil => simp [insertRowSorted]
  | cons y ys ih =>
      simp only [insertRowSorted]
      split
      · simp
      · simp [ih]; tauto

theorem mem_sortRows {a : List String} {l : List (List String)} :
    a ∈ sortRows l ↔ a ∈ l := by
  induction l with
  | nil => simp [sortRows]
  | cons x xs ih => simp [sortRows, mem_insertRowSorted, ih]

theorem length_insertRowSorted (x : List String) (l : List (List String)) :
    (insertRowSorted x l).length = l.length + 1 := by
  induction l with
  | nil => rfl
  | cons y ys ih =>
      simp only [insertRowSorted]
      split <;> simp [ih]

theorem length_sortRows (l : List (List String)) :
    (sortRows l).length = l.length := by
  induction l with
  | nil => rfl
  | cons x xs ih => simp [sortRows, length_insertRowSorted, ih]

/-! ### The claims -/

/-- C1: the claim says the history is bounded by CAPACITY (300) with FIFO
eviction.  The code (app.rs:52-53) pushes one sample per frame onto a
plain `Vec` and never evicts: after any `n` frames the history has length
`n`; in particular after 301 frames it has length 301 (not 300) and its
oldest sample still has tick index 0 (not 301 - 300 = 1). -/
theorem claimC1_history_unbounded :
    (∀ (u : Nat → Rat) (n : Nat), ((runFrames u n).cpu).length = n) ∧
    ((runFrames (fun _ => 0) 301).cpu).length = 301 ∧
    ((runFrames (fun _ => 0) 301).cpu).head? = some (0, 0) := by
  refine ⟨fun u n => by simp [cpu_runFrames], by simp [cpu_runFrames], ?_⟩
  exact head_cpu_runFrames (fun _ => 0) 301 (by omega)

/-- C2: the claim says ties on cpu_percent are broken by ascending pid.
The comparator (app.rs:115-119) compares only the cpu field, and the
stable sort keeps equal keys in iteration order: for rows with pids 5 and
3 and equal cpu iterated in that order, pid 5 stays first.  The spec's
concrete example does come out as claimed, because there pid 2 already
precedes pid 3 in the input. -/
theorem claimC2_sort_lacks_tiebreak :
    sortRows [mkRow 5 "x" "50", mkRow 3 "y" "50"] =
      [mkRow 5 "x" "50", mkRow 3 "y" "50"] ∧
    renderRows "" [(1, "a", "10"), (2, "b", "50"), (3, "c", "50")] =
      [mkRow 2 "b" "50", mkRow 3 "c" "50", mkRow 1 "a" "10"] := by
  exact ⟨by decide, by decide⟩

/-- C7: each draw pass increments the frame counter by one, refreshes the
aggregate CPU once, appends exactly one history sample, and triggers the
full process refresh exactly when the frame counter is divisible by 60;
over `n` frames from startup that is `n` aggregate refreshes, `n` samples
and `⌈n/60⌉` full refreshes. -/
theorem claimC7_draw_cadence :
    (∀ (s : DrawState) (v : Rat),
      (drawPass s v).frame = s.frame + 1 ∧
      (drawPass s v).aggRefreshCount = s.aggRefreshCount + 1 ∧
      ((drawPass s v).cpu).length = s.cpu.length + 1 ∧
      ((drawPass s v).fullRefreshCount = s.fullRefreshCount + 1 ↔ s.frame % 60 = 0) ∧
      ((drawPass s v).fullRefreshCount = s.fullRefreshCount ↔ s.frame % 60 ≠ 0)) ∧
    (∀ (u : Nat → Rat) (n : Nat),
      (runFrames u n).frame = n ∧
      (runFrames u n).aggRefreshCount = n ∧
      ((runFrames u n).cpu).length = n ∧
      (runFrames u n).fullRefreshCount = (n + 59) / 60) := by
  constructor
  · intro s v
    refine ⟨rfl, rfl, by simp [drawPass], ?_, ?_⟩ <;>
      · simp only [drawPass]
        split <;> simp_all
  · intro u n
    exact ⟨frame_runFrames u n, agg_runFrames u n,
      by simp [cpu_runFrames], full_runFrames u n⟩

theorem hasSubstr_nil (l : List Char) : hasSubstr [] l = true := by
  cases l <;> simp [hasSubstr, startsWithL]

theorem cellMatches_empty (cell : String) : cellMatches "" cell = true := by
  unfold cellMatches strContains
  have h : (lowerStr "").data = [] := rfl
  rw [h]
  exact hasSubstr_nil _

/-- C3: a row survives the `retain` of app.rs:121-126 iff its pid, name or
cpu cell contains the query text case-insensitively; an empty query keeps
every row, so the pipeline output of `render_processes` has the input's
length. -/
theorem claimC3_filter_correct :
    (∀ (text : String) (pid : Nat) (name cpu : String),
      rowKept text (mkRow pid name cpu) = true ↔
        (cellMatches text (toString pid) = true ∨ cellMatches text name = true ∨
          cellMatches text cpu = true)) ∧
    (∀ (text : String) (rows : List (List String)) (row : List String),
      row ∈ filterRows text rows ↔ row ∈ rows ∧ rowKept text row = true) ∧
    (∀ (procs : List (Nat × String × String)),
      (renderRows "" procs).length = procs.length) := by
  refine ⟨?_, ?_, ?_⟩
  · intro text pid name cpu
    simp [rowKept, mkRow]
  · intro text rows row
    simp [filterRows, List.mem_filter]
  · intro procs
    unfold renderRows filterRows
    rw [List.filter_eq_self.mpr, length_sortRows, List.length_map]
    intro row hrow
    rw [mem_sortRows] at hrow
    obtain ⟨p, _, rfl⟩ := List.mem_map.mp hrow
    simp [rowKept, mkRow, cellMatches_empty]

theorem fcmp_ne_none {x y : F32} (hx : x ≠ F32.nan) (hy : y ≠ F32.nan) :
    fcmp x y ≠ none := by
  cases x <;> cases y <;> simp_all [fcmp]

/-- C9: the comparator of app.rs:115-119 is `partial_cmp` on the values
parsed back (with a 0.0 fallback) from the stringified cpu cells, and the
code unwraps it.  When no row's sort key is NaN the comparator never
returns `none`, so the unwrap cannot fail; but "NaN" parses successfully
to NaN, on which `partial_cmp` returns `none` and the unwrap panics. -/
theorem claimC9_nan_comparator :
    (∀ (rows : List (List String)), (∀ r ∈ rows, rowVal r ≠ F32.nan) →
      ∀ a ∈ rows, ∀ b ∈ rows, rowCmp a b ≠ none) ∧
    parseF32 "NaN" = some F32.nan ∧
    rowCmp (mkRow 7 "bad" "NaN") (mkRow 8 "ok" "5") = none := by
  refine ⟨?_, by decide, by decide⟩
  intro rows h a ha b hb
  exact fcmp_ne_none (h b hb) (h a ha)

/-- C9 witness: on the NaN-free list `[mkRow 1 "a" "10"]` the comparator
is defined at every pair. -/
theorem claimC9_witness :
    rowCmp (mkRow 1 "a" "10") (mkRow 1 "a" "10") ≠ none :=
  claimC9_nan_comparator.1 [mkRow 1 "a" "10"] (by decide)
    (mkRow 1 "a" "10") (List.mem_singleton.mpr rfl)
    (mkRow 1 "a" "10") (List.mem_singleton.mpr rfl)

/-! ### Helper lemmas on `on_key_event`: one per `App` field -/

theorem isQuitKey_plain_char (c : Char) :
    isQuitKey ⟨noMods, .char c⟩ = decide (c = 'q') := by
  simp [isQuitKey, noMods, ctrlOnly]

theorem isQuitKey_plain_char' (c : Char) :
    isQuitKey (plainKey (.char c)) = decide (c = 'q') :=
  isQuitKey_plain_char c

theorem onKeyEvent_cpu (a : App) (k : KeyEvent) : (onKeyEvent a k).cpu = a.cpu := by
  unfold onKeyEvent
  cases hs : a.search <;> by_cases hq : isQuitKey k <;> simp [hq, hs] <;>
    (try split) <;> simp_all

theorem onKeyEvent_running (a : App) (k : KeyEvent) :
    (onKeyEvent a k).running = (if isQuitKey k then false else a.running) := by
  unfold onKeyEvent
  cases hs : a.search <;> by_cases hq : isQuitKey k <;> simp [hq, hs] <;>
    (try split) <;> simp_all

theorem onKeyEvent_searchText (a : App) (k : KeyEvent) :
    (onKeyEvent a k).searchText =
      (if a.search then textInput a.searchText k else a.searchText) := by
  unfold onKeyEvent
  cases hs : a.search <;> by_cases hq : isQuitKey k <;> simp [hq, hs] <;>
    (try split) <;> simp_all

theorem onKeyEvent_search (a : App) (k : KeyEvent) :
    (onKeyEvent a k).search =
      (if isQuitKey k then a.search
        else if k.code = .char 's' then !a.search else a.search) := by
  unfold onKeyEvent
  cases hs : a.search <;> by_cases hq : isQuitKey k <;> simp [hq, hs] <;>
    (try split) <;> simp_all

theorem onKeyEvent_selected (a : App) (k : KeyEvent) :
    (onKeyEvent a k).selected =
      (if isQuitKey k then a.selected
        else if k.code = .char 'j' then selectNext a.selected
        else if k.code = .char 'k' then selectPrev a.selected
        else a.selected) := by
  unfold onKeyEvent
  cases hs : a.search <;> by_cases hq : isQuitKey k <;> simp [hq, hs] <;>
    (try split) <;> simp_all

/-- C4 counterexample: pressing j with the cursor at 4 over a filtered
list of length 5 leaves the cursor at 5, outside `[0, 4]`: neither
`select_next` (app.rs:182) nor anything else in the handler clamps to the
list length, so the claimed invariant fails right after the operation. -/
theorem claimC4_cex :
    (onKeyEvent app5 jEv).selected = some 5 ∧ ¬ cursorInvariant (some 5) 5 := by
  refine ⟨by decide, fun h => ?_⟩
  have := h.2 5 rfl
  omega

/-- C4 amended: the key handler does not maintain the invariant: j maps a
cursor at `i` to `i + 1` and k to `i - 1` (saturating) with no reference
to the filtered-list length, and startup sets the cursor to `Some 0` even
when the list is empty; any clamping is left to the rendering library. -/
theorem claimC4_no_clamping (a : App) (i : Nat) (hc : a.selected = some i) :
    (onKeyEvent a jEv).selected = some (i + 1) ∧
    (onKeyEvent a kEv).selected = some (i - 1) ∧
    (runInit a).selected = some 0 := by
  rw [onKeyEvent_selected, onKeyEvent_selected]
  simp [jEv, kEv, plainKey, isQuitKey_plain_char, isQuitKey_plain_char', hc, selectNext, selectPrev, runInit]

/-- C4 witness: from cursor 4, j yields 5 and k yields 3; startup yields 0. -/
theorem claimC4_witness :
    (onKeyEvent app5 jEv).selected = some 5 ∧
    (onKeyEvent app5 kEv).selected = some 3 ∧
    (runInit app5).selected = some 0 :=
  claimC4_no_clamping app5 4 rfl

/-- C5 counterexample: in Search mode (state `appS`) pressing Esc does
not keep the program running in Normal mode — the first match arm of
`on_key_event` (app.rs:174-175) quits on Esc from any mode, and the
`search` flag stays set. -/
theorem claimC5_cex :
    ¬ ((onKeyEvent appS escEv).running = true ∧
        (onKeyEvent appS escEv).search = false) := by
  decide

/-- C5 amended: pressing Esc quits from any mode, Search included (and
leaves the `search` flag as it was); quitting is triggered exactly by Esc
or q from any mode, or by Ctrl-C. -/
theorem claimC5_quit_keys (a : App) (k : KeyEvent) (h : a.running = true) :
    ((onKeyEvent a k).running = false ↔ isQuitKey k = true) ∧
    (onKeyEvent a escEv).search = a.search := by
  constructor
  · rw [onKeyEvent_running]
    by_cases hq : isQuitKey k <;> simp [hq, h]
  · rw [onKeyEvent_search]
    simp [escEv, plainKey, isQuitKey]

/-- C5 witness: instantiated at the running Search-mode state `appS` and
the q key. -/
theorem claimC5_witness :
    appS.running = true ∧
      (((onKeyEvent appS qEv).running = false ↔ isQuitKey qEv = true) ∧
        (onKeyEvent appS escEv).search = appS.search) :=
  ⟨rfl, claimC5_quit_keys appS qEv rfl⟩

/-- C6 counterexample: pressing s while in Search mode (state `appS`)
does not stay in Search mode: the second match arm (app.rs:176-178)
toggles the `search` flag off, even though the textarea already received
the character. -/
theorem claimC6_cex :
    ¬ ((onKeyEvent appS sEv).searchText = appS.searchText.push 's' ∧
        (onKeyEvent appS sEv).search = true) := by
  decide

/-- C6 amended: in Search mode a plain character key is appended to the
query text, and the machine remains in Search mode for every character
except s, which toggles Search off (q additionally quits, j and k
additionally move the cursor). -/
theorem claimC6_char_in_search (a : App) (c : Char) (h : a.search = true) :
    (onKeyEvent a (plainKey (.char c))).searchText = a.searchText.push c ∧
    (onKeyEvent a (plainKey (.char c))).search =
      (if c = 's' then false else true) := by
  constructor
  · rw [onKeyEvent_searchText]
    simp [h, textInput, plainKey, noMods]
  · rw [onKeyEvent_search]
    by_cases hq : c = 'q' <;> by_cases hs : c = 's' <;>
      simp_all [isQuitKey_plain_char, isQuitKey_plain_char', plainKey]

/-- C6 witness: instantiated at the Search-mode state `appS` and the
character x. -/
theorem claimC6_witness :
    appS.search = true ∧
      ((onKeyEvent appS (plainKey (.char 'x'))).searchText =
          appS.searchText.push 'x' ∧
        (onKeyEvent appS (plainKey (.char 'x'))).search =
          (if 'x' = 's' then false else true)) :=
  ⟨rfl, claimC6_char_in_search appS 'x' rfl⟩

/-- C8: mode transitions leave unrelated state unchanged: pressing s in
Normal mode (entering Search) leaves the selection cursor untouched, and
pressing s in Search mode (leaving it) leaves the cpu history untouched —
the s arm of `on_key_event` (app.rs:176-178) only flips the flag, and the
handler never writes the history. -/
theorem claimC8_mode_isolation (a : App) :
    (a.search = false →
      (onKeyEvent a sEv).selected = a.selected ∧ (onKeyEvent a sEv).search = true) ∧
    (a.search = true →
      (onKeyEvent a sEv).cpu = a.cpu ∧ (onKeyEvent a sEv).search = false) := by
  constructor
  · intro h
    rw [onKeyEvent_selected, onKeyEvent_search]
    simp [sEv, plainKey, isQuitKey_plain_char, isQuitKey_plain_char', h]
  · intro h
    rw [onKeyEvent_cpu, onKeyEvent_search]
    simp [sEv, plainKey, isQuitKey_plain_char, isQuitKey_plain_char', h]

/-- C8 witness: entering Search with the cursor at 2 keeps it at 2
(state `appN2`), and leaving Search keeps the history (state `appS`). -/
theorem claimC8_witness :
    (onKeyEvent appN2 sEv).selected = some 2 ∧
    (onKeyEvent appS sEv).cpu = appS.cpu :=
  ⟨((claimC8_mode_isolation appN2).1 rfl).1.trans rfl,
    ((claimC8_mode_isolation appS).2 rfl).1⟩

/-- C10: in Search mode every key press reaches both the textarea and the
global handler (app.rs:170-186): j and k are appended to the query text
and also move the cursor, and q is appended to the query text and also
quits. -/
theorem claimC10_double_routing (a : App) (h : a.search = true) :
    ((onKeyEvent a jEv).searchText = a.searchText.push 'j' ∧
      (onKeyEvent a jEv).selected = selectNext a.selected) ∧
    ((onKeyEvent a kEv).searchText = a.searchText.push 'k' ∧
      (onKeyEvent a kEv).selected = selectPrev a.selected) ∧
    ((onKeyEvent a qEv).searchText = a.searchText.push 'q' ∧
      (onKeyEvent a qEv).running = false) := by
  refine ⟨⟨?_, ?_⟩, ⟨?_, ?_⟩, ⟨?_, ?_⟩⟩ <;>
    first
      | (rw [onKeyEvent_searchText]
         simp [h, textInput, jEv, kEv, qEv, plainKey, noMods])
      | (rw [onKeyEvent_selected]
         simp [jEv, kEv, plainKey, isQuitKey_plain_char, isQuitKey_plain_char'])
      | (rw [onKeyEvent_running]
         simp [qEv, plainKey, isQuitKey_plain_char, isQuitKey_plain_char'])

/-- C10 witness: instantiated at the Search-mode state `appS`. -/
theorem claimC10_witness :
    appS.search = true ∧
      (((onKeyEvent appS jEv).searchText = appS.searchText.push 'j' ∧
        (onKeyEvent appS jEv).selected = selectNext appS.selected) ∧
      ((onKeyEvent appS kEv).searchText = appS.searchText.push 'k' ∧
        (onKeyEvent appS kEv).selected = selectPrev appS.selected) ∧
      ((onKeyEvent appS qEv).searchText = appS.searchText.push 'q' ∧
        (onKeyEvent appS qEv).running = false)) :=
  ⟨rfl, claimC10_double_routing appS rfl⟩

end Ratatop
